import Mathlib

/-!
Shallow embedding of the `my-nexus-nft-example` repository: the `SimpleNFT`
Solidity contract (`contracts/SimpleNFT.sol`) and the Next.js API routes
(`/api/image/[tokenId]`, `/api/metadata/[tokenId]`, the query-parameter
metadata route, and `/api/upload`), together with proofs about the claims
of the specification.
-/

/-- Decidable equality of call results, for evaluating concrete runs. -/
instance {ε α : Type} [DecidableEq ε] [DecidableEq α] : DecidableEq (Except ε α) :=
  fun x y =>
    match x, y with
    | .ok a, .ok b =>
      if h : a = b then isTrue (by rw [h])
      else isFalse (by intro hh; cases hh; exact h rfl)
    | .ok _, .error _ => isFalse (by intro hh; cases hh)
    | .error _, .ok _ => isFalse (by intro hh; cases hh)
    | .error e, .error f =>
      if h : e = f then isTrue (by rw [h])
      else isFalse (by intro hh; cases hh; exact h rfl)

namespace SimpleNFT

/-- Account addresses, abstracted as strings (Solidity `address` values). -/
abbrev Address := String

/-- Errors signalled by the contract.  `unauthorized` is OpenZeppelin's
`OwnableUnauthorizedAccount(caller)` raised by the `onlyOwner` modifier,
`metadataFrozen` is the revert of `require(!_metadataFrozen, "Metadata is frozen")`,
and `nonexistentToken` is `ERC721NonexistentToken(tokenId)` for operations on
unminted token ids. -/
inductive ContractError where
  | unauthorized (caller : Address)
  | metadataFrozen
  | nonexistentToken (tokenId : Nat)
  deriving DecidableEq

/-- Storage of a deployed `SimpleNFT` collection.
`nextTokenId` is the private counter `_nextTokenId` (initialised to 1),
`baseTokenURI` is `_baseTokenURI`, `metadataFrozen` is `_metadataFrozen`,
`owners` is the inherited ERC721 owner mapping represented as an association
list (most recent binding first), and `contractOwner` is the `Ownable` owner
set by the constructor. `name` and `symbol` are the immutable ERC721
collection name and symbol. -/
structure State where
  name : String
  symbol : String
  nextTokenId : Nat
  baseTokenURI : String
  metadataFrozen : Bool
  owners : List (Nat × Address)
  contractOwner : Address
  deriving DecidableEq

/-- The constructor: `nextTokenId = 1`, empty base URI, not frozen, no tokens,
owner as given. -/
def deploy (name symbol : String) (initialOwner : Address) : State :=
  { name := name, symbol := symbol, nextTokenId := 1, baseTokenURI := "",
    metadataFrozen := false, owners := [], contractOwner := initialOwner }

/-- Owner of a token id, `none` when the token was never minted
(the ERC721 `_ownerOf` view). -/
def ownerOf (s : State) (tokenId : Nat) : Option Address :=
  (s.owners.find? (fun p => p.1 == tokenId)).map Prod.snd

/-- Whether a token id has been minted. -/
def minted (s : State) (tokenId : Nat) : Bool :=
  (ownerOf s tokenId).isSome

/-- `mint()`: assigns `tokenId = _nextTokenId++`, `_safeMint(msg.sender, tokenId)`,
emits `MetadataUpdate(tokenId)` and returns the id.  The function has no access
restriction; receiver-callback rejection of `_safeMint` is an environmental
condition outside this model, so a call modelled here is a successful call. -/
def mint (caller : Address) (s : State) : Nat × State :=
  let tokenId := s.nextTokenId
  (tokenId,
    { s with nextTokenId := s.nextTokenId + 1,
             owners := (tokenId, caller) :: s.owners })

/-- `setBaseURI(baseURI)`: the `onlyOwner` modifier runs first and reverts with
`OwnableUnauthorizedAccount(caller)` for a non-owner; then
`require(!_metadataFrozen, "Metadata is frozen")`; otherwise the base URI is
replaced (and `BatchMetadataUpdate(1, type(uint256).max)` is emitted). -/
def setBaseURI (caller : Address) (uri : String) (s : State) :
    Except ContractError State :=
  if caller ≠ s.contractOwner then .error (.unauthorized caller)
  else if s.metadataFrozen then .error .metadataFrozen
  else .ok { s with baseTokenURI := uri }

/-- `freezeMetadata()`: `onlyOwner`, then sets `_metadataFrozen = true`
unconditionally (no error when already frozen). -/
def freezeMetadata (caller : Address) (s : State) : Except ContractError State :=
  if caller ≠ s.contractOwner then .error (.unauthorized caller)
  else .ok { s with metadataFrozen := true }

/-- `isMetadataFrozen()` view. -/
def isMetadataFrozen (s : State) : Bool := s.metadataFrozen

/-- `totalSupply()`: `_nextTokenId - 1`. -/
def totalSupply (s : State) : Nat := s.nextTokenId - 1

/-- Modelled from the spec: the inherited `ERC721.tokenURI` is OpenZeppelin
library code, not part of this repository's sources; per the spec it "fails
with `NotFound` if unminted; otherwise returns `baseURI + tokenId` (decimal,
no padding)", where the base URI is the stored `_baseTokenURI` returned by
the overridden `_baseURI()`. -/
def tokenURI (s : State) (tokenId : Nat) : Except ContractError String :=
  match ownerOf s tokenId with
  | none => .error (.nonexistentToken tokenId)
  | some _ => .ok (s.baseTokenURI ++ toString tokenId)

/-- Modelled from the spec: the inherited `ERC721.transferFrom` is OpenZeppelin
library code, not part of this repository's sources; per the spec it "fails
with `Unauthorized` if `caller` is not `from` or an approved operator ...;
fails with `NotFound` if `tokenId` was never minted; updates `owner`".  No
approval operation is surfaced in the specified interface, so authorization
reduces to the caller being `from`, the token's current owner. -/
def transferFrom (caller source dest : Address) (tokenId : Nat) (s : State) :
    Except ContractError State :=
  match ownerOf s tokenId with
  | none => .error (.nonexistentToken tokenId)
  | some o =>
    if caller == source && o == source then
      .ok { s with owners :=
        (tokenId, dest) :: s.owners.filter (fun p => p.1 != tokenId) }
    else .error (.unauthorized caller)

/-- The state-changing operations of the deployed collection's interface. -/
inductive Op where
  | mintOp (caller : Address)
  | setBaseURIOp (caller : Address) (uri : String)
  | freezeOp (caller : Address)
  | transferOp (caller source dest : Address) (tokenId : Nat)
  deriving DecidableEq

/-- Outcome of one ledger transaction: a reverted call leaves the state
unchanged (all-or-nothing execution). -/
def settle (r : Except ContractError State) (s : State) : State :=
  match r with
  | .ok s' => s'
  | .error _ => s

def applyOp (s : State) (op : Op) : State :=
  match op with
  | .mintOp caller => (mint caller s).2
  | .setBaseURIOp caller uri => settle (setBaseURI caller uri s) s
  | .freezeOp caller => settle (freezeMetadata caller s) s
  | .transferOp c f t id => settle (transferFrom c f t id s) s

/-- Execution of a sequence of transactions. -/
def run (ops : List Op) (s : State) : State :=
  ops.foldl applyOp s

/-- A sequence of `mint()` calls by the given callers: the list of assigned
token ids in call order, and the final state. -/
def mintSeq (callers : List Address) (s : State) : List Nat × State :=
  match callers with
  | [] => ([], s)
  | c :: rest =>
    let r := mint c s
    let rs := mintSeq rest r.2
    (r.1 :: rs.1, rs.2)

/-- The state-shape invariant of reachable collections: the counter is at
least 1 and exactly the ids `1, ..., nextTokenId - 1` are minted. -/
def Inv (s : State) : Prop :=
  1 ≤ s.nextTokenId ∧
  ∀ tokenId : Nat, minted s tokenId = true ↔ 1 ≤ tokenId ∧ tokenId < s.nextTokenId

end SimpleNFT

namespace ImageApi

/-- Truncation of an integer to a signed 32-bit value, the effect of
JavaScript's `| 0` (and of `<<` on its result). -/
def toInt32 (n : Int) : Int := (n + 2147483648) % 4294967296 - 2147483648

/-- One step of the reduce in `generateColor`/`generatePattern`:
`((acc << 5) - acc + char.charCodeAt(0)) | 0`.  In JavaScript `acc << 5`
itself already truncates to a signed 32-bit value before the subtraction. -/
def hashStep (acc : Int) (c : Nat) : Int :=
  toInt32 (toInt32 (acc * 32) - acc + c)

/-- The deterministic 32-bit hash of the token id string used by the image
route, folded over the characters of the string.  (`Array.from` iterates
code points; for the BMP characters of token ids these coincide with the
`charCodeAt` code units, which is what `Char.toNat` models.) -/
def jsHash (tokenId : String) : Int :=
  tokenId.data.foldl (fun acc ch => hashStep acc ch.toNat) 0

/-- One fold step of the hash exactly as the specification words it:
`hash = (hash*31 + charCode) mod 2^32`, signed overflow wrapping. -/
def specHashStep (acc : Int) (c : Nat) : Int := toInt32 (acc * 31 + c)

/-- The hash as described by the specification, for comparison with the
source-level `jsHash`. -/
def specHash (tokenId : String) : Int :=
  tokenId.data.foldl (fun acc ch => specHashStep acc ch.toNat) 0

/-- `generateColor`: an HSL color string with hue `Math.abs(hash) % 360`
and fixed saturation 70% and lightness 60%. -/
def generateColor (tokenId : String) : String :=
  let hash := jsHash tokenId
  "hsl(" ++ toString (hash.natAbs % 360) ++ ", 70%, 60%)"

/-- One `<circle .../>` element of the pattern, with the rendered `cx`,
`cy` and `r` attribute values interpolated like the source template
literal. -/
def circleSVG (cx cy r : String) : String :=
  "\n      <circle \n        cx=\"" ++ cx ++ "\" \n        cy=\"" ++ cy ++
  "\" \n        r=\"" ++ r ++ "\" \n        fill=\"rgba(255,255,255,0.2)\"\n      />\n    "

/-- `generatePattern`: `(Math.abs(hash) % 5) + 3` circles on a ring, each
of radius `50 + (hash % 30)` where `%` is JavaScript's truncated remainder
(sign of the dividend, `Int.tmod`).  The floating-point ring coordinates
`250 + cos/sin(i * 2π/numCircles) * 100` are outside the integer model;
`trig numCircles i` supplies their rendered decimal strings. -/
def generatePattern (trig : Nat → Nat → String × String) (tokenId : String) : String :=
  let hash := jsHash tokenId
  let numCircles := hash.natAbs % 5 + 3
  String.join ((List.range numCircles).map (fun i =>
    circleSVG (trig numCircles i).1 (trig numCircles i).2
      (toString (50 + Int.tmod hash 30))))

/-- The SVG document template of the image route `GET` handler, with the
background color, the pattern and the token id interpolated, trimmed like
`.trim()` on the template literal. -/
def svgTemplate (backgroundColor pattern tokenId : String) : String :=
  ("\n      <svg \n        width=\"500\" \n        height=\"500\" \n        viewBox=\"0 0 500 500\" \n        xmlns=\"http://www.w3.org/2000/svg\"\n        preserveAspectRatio=\"xMidYMid meet\"\n      >\n        <defs>\n          <linearGradient id=\"grad\" x1=\"0%\" y1=\"0%\" x2=\"100%\" y2=\"100%\">\n            <stop offset=\"0%\" style=\"stop-color:"
    ++ backgroundColor ++ ";stop-opacity:1\" />\n            <stop offset=\"100%\" style=\"stop-color:"
    ++ backgroundColor ++ ";stop-opacity:0.7\" />\n          </linearGradient>\n        </defs>\n        \n        <!-- Background -->\n        <rect width=\"100%\" height=\"100%\" fill=\"url(#grad)\"/>\n        \n        <!-- Pattern -->\n        "
    ++ pattern ++ "\n        \n        <!-- Token ID -->\n        <text \n          x=\"50%\" \n          y=\"50%\" \n          dominant-baseline=\"middle\" \n          text-anchor=\"middle\" \n          font-family=\"Arial, sans-serif\" \n          font-size=\"48\" \n          font-weight=\"bold\" \n          fill=\"white\"\n          filter=\"drop-shadow(0 2px 4px rgba(0,0,0,0.2))\"\n        >\n          #"
    ++ tokenId ++ "\n        </text>\n      </svg>\n    ").trim

/-- An image route response: status, the explicitly set headers, and the
body. -/
structure ImageResponse where
  status : Nat
  contentType : Option String
  cacheControl : Option String
  body : String
  deriving DecidableEq

/-- The image route `GET` handler: always serves the generated SVG as
`image/svg+xml` with a long-lived immutable cache directive. -/
def imageGET (trig : Nat → Nat → String × String) (tokenId : String) : ImageResponse :=
  { status := 200,
    contentType := some "image/svg+xml",
    cacheControl := some "public, max-age=31536000, immutable",
    body := svgTemplate (generateColor tokenId) (generatePattern trig tokenId) tokenId }

end ImageApi

namespace JsStr

/-- JavaScript `String.prototype.toLowerCase` restricted to the ASCII range
(character-wise), which covers the hexadecimal contract addresses this
repository lowercases. -/
def lowerChar (c : Char) : Char :=
  if 'A' ≤ c ∧ c ≤ 'Z' then Char.ofNat (c.toNat + 32) else c

def jsToLower (s : String) : String := String.mk (s.data.map lowerChar)

/-- JavaScript `String.prototype.startsWith`. -/
def jsStartsWith (s pre : String) : Bool := pre.data.isPrefixOf s.data

end JsStr

namespace MetadataApi

open JsStr

/-- A metadata attribute value: the TypeScript union `string | number`. -/
inductive AttrValue where
  | str (s : String)
  | num (n : Int)
  deriving DecidableEq

/-- One entry of the `attributes` array of the `NFTMetadata` interface. -/
structure Attr where
  trait_type : String
  value : AttrValue
  display_type : Option String := none
  deriving DecidableEq

/-- The `NFTMetadata` interface of the metadata route. -/
structure NFTMetadata where
  name : String
  description : String
  image : String
  external_url : String
  attributes : List Attr
  deriving DecidableEq

/-- `validateMetadata`: all four string fields truthy (non-empty), the
attributes an array (always true of a list) whose entries have a truthy
`trait_type` and a value of type string or number (always true of
`AttrValue`). -/
def validateMetadata (m : NFTMetadata) : Bool :=
  m.name != "" && (m.description != "" && (m.image != "" && (m.external_url != "" &&
    m.attributes.all (fun a =>
      a.trait_type != "" &&
        (match a.value with
         | .str _ => true
         | .num _ => true)))))

/-- Outcome of the Firebase storage interaction for one collection path:
`getStorage`/`ref` throwing, `listAll` throwing, or a listing of item names
together with the outcome of `getDownloadURL` for each item (`none` models
the call throwing). -/
inductive StorageOutcome where
  | initFailure
  | listFailure
  | listed (items : List String) (urlOf : String → Option String)

/-- `findUploadedImage(contractAddress)`: lists
`collections/<contractAddress.toLowerCase()>`, picks the first item whose
name starts with `"collection-"`, and resolves its download URL; every
failure path returns `null`. -/
def findUploadedImage (store : String → StorageOutcome) (contractAddress : String) :
    Option String :=
  match store ("collections/" ++ jsToLower contractAddress) with
  | .initFailure => none
  | .listFailure => none
  | .listed items urlOf =>
    match items.find? (fun nm => jsStartsWith nm "collection-") with
    | none => none
    | some item =>
      match urlOf item with
      | none => none
      | some url => some url

/-- JavaScript truthiness of a nullable string: not `null`/absent and not
empty. -/
def isTruthy (v : Option String) : Bool :=
  match v with
  | none => false
  | some s => s != ""

/-- JavaScript `a || b` on a nullable string and a string. -/
def jsOr (a : Option String) (b : String) : String :=
  match a with
  | none => b
  | some s => if s != "" then s else b

/-- `process.env.X || 'http://localhost:3000'`: the server-side value of the
`API_URL`/`BASE_URL` constants (and of `apiUrl`/`websiteUrl` in the
query-parameter route). -/
def envOr (v : Option String) : String := jsOr v "http://localhost:3000"

/-- The OpenSea-compatible metadata document the route constructs for a
token id, given the uploaded-image lookup result and the current time in
seconds (`Math.floor(Date.now() / 1000)`). -/
def buildMetadata (apiURL siteURL tokenId : String) (uploadedImage : Option String)
    (now : Int) : NFTMetadata :=
  { name := "MyNFT #" ++ tokenId,
    description := "NFT #" ++ tokenId ++ " on the Nexus network.",
    image := jsOr uploadedImage (apiURL ++ "/api/image/" ++ tokenId),
    external_url := siteURL ++ "/nft/" ++ tokenId,
    attributes := [
      { trait_type := "Token ID", value := .str tokenId },
      { trait_type := "Image Type",
        value := .str (if isTruthy uploadedImage then "Uploaded" else "Generated") },
      { display_type := some "date", trait_type := "Created", value := .num now }] }

/-- Body of a metadata route response: an error object or the document. -/
inductive MetaBody where
  | errMsg (msg : String)
  | doc (m : NFTMetadata)
  deriving DecidableEq

/-- A metadata route response: status and the explicitly set headers. -/
structure MetaResponse where
  status : Nat
  contentType : Option String
  cacheControl : Option String
  body : MetaBody
  deriving DecidableEq

/-- The `GET` handler of `/api/metadata/[tokenId]`: the token id is a path
parameter (always present when the route matches), the contract address a
nullable query parameter; `envApi`/`envSite` are the environment variables
behind the `API_URL`/`BASE_URL` constants and `store` the storage
environment. -/
def metadataGET (envApi envSite : Option String) (store : String → StorageOutcome)
    (tokenId : String) (contract : Option String) (now : Int) : MetaResponse :=
  if !(isTruthy contract) then
    { status := 400, contentType := none, cacheControl := none,
      body := .errMsg "Contract address is required" }
  else
    let uploadedImage := findUploadedImage store (contract.getD "")
    let metadata := buildMetadata (envOr envApi) (envOr envSite) tokenId uploadedImage now
    if !(validateMetadata metadata) then
      { status := 500, contentType := none, cacheControl := none,
        body := .errMsg "Invalid metadata structure" }
    else
      { status := 200, contentType := some "application/json",
        cacheControl := some "no-cache, no-store, must-revalidate",
        body := .doc metadata }

/-- The `GET` handler of the query-parameter metadata route, where both
`contract` and `tokenId` are nullable query parameters and there is no
validation step. -/
def metadataGETQuery (envApi envSite : Option String) (store : String → StorageOutcome)
    (contract : Option String) (tokenId : Option String) (now : Int) : MetaResponse :=
  if !(isTruthy contract) then
    { status := 400, contentType := none, cacheControl := none,
      body := .errMsg "Contract address is required" }
  else if !(isTruthy tokenId) then
    { status := 400, contentType := none, cacheControl := none,
      body := .errMsg "Token ID is required" }
  else
    let uploadedImage := findUploadedImage store (contract.getD "")
    let metadata := buildMetadata (envOr envApi) (envOr envSite) (tokenId.getD "")
      uploadedImage now
    { status := 200, contentType := some "application/json",
      cacheControl := some "no-cache, no-store, must-revalidate",
      body := .doc metadata }

/-- The `image` field of a served document, `none` for error responses. -/
def imageOf (r : MetaResponse) : Option String :=
  match r.body with
  | .doc m => some m.image
  | .errMsg _ => none

/-- The value of the `Image Type` attribute of a served document. -/
def imageTypeOf (r : MetaResponse) : Option AttrValue :=
  match r.body with
  | .doc m => (m.attributes.find? (fun a => a.trait_type == "Image Type")).map Attr.value
  | .errMsg _ => none

/-- A response is the missing-parameter client error of the metadata
routes. -/
def isMissingParamResp (r : MetaResponse) : Prop :=
  r.status = 400 ∧
    (r.body = .errMsg "Contract address is required" ∨
     r.body = .errMsg "Token ID is required")

/-- A storage environment whose single collection asset resolves to the
empty-string URL. -/
def emptyUrlStore : String → StorageOutcome := fun _ =>
  .listed ["collection-logo.png"] (fun _ => some "")


end MetadataApi

namespace UploadApi

open JsStr

/-- The fields of the multipart `file` the upload route reads: the
client-supplied filename and MIME type. -/
structure UploadFile where
  name : String
  type : String
  deriving DecidableEq

/-- Result of the upload `POST` handler: a 400 client error, or a stored
object whose `path` is the string passed to `ref(storage, storagePath)` and
echoed in the success response. -/
inductive UploadResult where
  | clientError (msg : String)
  | stored (path : String)
  deriving DecidableEq

/-- A character the sanitizer keeps: the class `[a-zA-Z0-9.-]` of
`file.name.replace(/[^a-zA-Z0-9.-]/g, '')`. -/
def isSafeChar (c : Char) : Bool :=
  decide (('a' ≤ c ∧ c ≤ 'z') ∨ ('A' ≤ c ∧ c ≤ 'Z') ∨ ('0' ≤ c ∧ c ≤ '9') ∨
    c = '.' ∨ c = '-')

/-- The sanitized filename: every character outside `[a-zA-Z0-9.-]` is
removed. -/
def sanitizeFileName (nm : String) : String :=
  String.mk (nm.data.filter isSafeChar)

/-- The upload route `POST` handler: 400 when the file is missing, the
contract address is falsy, or the MIME type is not `image/*`; otherwise the
file is stored under
`collections/<contractAddress.toLowerCase()>/collection-<sanitized name>`. -/
def uploadPOST (file : Option UploadFile) (contractAddress tokenId : Option String) :
    UploadResult :=
  match file with
  | none => .clientError "No file uploaded"
  | some f =>
    if !(MetadataApi.isTruthy contractAddress) then
      .clientError "Contract address is required"
    else if !(jsStartsWith f.type "image/") then
      .clientError "File must be an image"
    else
      .stored ("collections/" ++ jsToLower (contractAddress.getD "") ++ "/" ++
        ("collection-" ++ sanitizeFileName f.name))

end UploadApi

namespace SimpleNFT

lemma mint_nextTokenId (c : Address) (s : State) :
    (mint c s).2.nextTokenId = s.nextTokenId + 1 := rfl

lemma mint_fst (c : Address) (s : State) :
    (mint c s).1 = s.nextTokenId := rfl

lemma mintSeq_ids (callers : List Address) (s : State) :
    (mintSeq callers s).1 = List.range' s.nextTokenId callers.length ∧
    (mintSeq callers s).2.nextTokenId = s.nextTokenId + callers.length := by
  induction callers generalizing s with
  | nil => simp [mintSeq]
  | cons c rest ih =>
    have h := ih (mint c s).2
    simp only [mintSeq, List.length_cons, List.range'_succ]
    constructor
    · simp only [h.1, mint_nextTokenId, mint_fst]
    · simp only [h.2, mint_nextTokenId]
      omega

lemma setBaseURI_ok_shape (caller : Address) (uri : String) (s s' : State)
    (h : setBaseURI caller uri s = .ok s') :
    s' = { s with baseTokenURI := uri } := by
  unfold setBaseURI at h
  split at h
  · exact absurd h (by simp)
  · split at h
    · exact absurd h (by simp)
    · cases h; rfl

lemma freezeMetadata_ok_shape (caller : Address) (s s' : State)
    (h : freezeMetadata caller s = .ok s') :
    s' = { s with metadataFrozen := true } := by
  unfold freezeMetadata at h
  split at h
  · exact absurd h (by simp)
  · cases h; rfl

lemma transferFrom_ok_shape (c f t : Address) (id : Nat) (s s' : State)
    (h : transferFrom c f t id s = .ok s') :
    s' = { s with owners := (id, t) :: s.owners.filter (fun p => p.1 != id) } := by
  unfold transferFrom at h
  split at h
  · exact absurd h (by simp)
  · split at h
    · cases h; rfl
    · exact absurd h (by simp)

lemma transferFrom_ok_minted (c f t : Address) (id : Nat) (s s' : State)
    (h : transferFrom c f t id s = .ok s') : minted s id = true := by
  unfold transferFrom at h
  split at h
  · exact absurd h (by simp)
  · rename_i o ho
    simp [minted, ho]

lemma applyOp_frozen (op : Op) (s : State) (h : s.metadataFrozen = true) :
    (applyOp s op).metadataFrozen = true := by
  cases op with
  | mintOp c => simpa [applyOp, mint] using h
  | setBaseURIOp c uri =>
    simp only [applyOp]
    cases hr : setBaseURI c uri s with
    | error e => simpa [settle] using h
    | ok s' =>
      rw [setBaseURI_ok_shape c uri s s' hr]
      simpa [settle] using h
  | freezeOp c =>
    simp only [applyOp]
    cases hr : freezeMetadata c s with
    | error e => simpa [settle] using h
    | ok s' =>
      rw [freezeMetadata_ok_shape c s s' hr]
      simp [settle]
  | transferOp c f t id =>
    simp only [applyOp]
    cases hr : transferFrom c f t id s with
    | error e => simpa [settle] using h
    | ok s' =>
      rw [transferFrom_ok_shape c f t id s s' hr]
      simpa [settle] using h

lemma run_frozen (ops : List Op) (s : State) (h : s.metadataFrozen = true) :
    (run ops s).metadataFrozen = true := by
  induction ops generalizing s with
  | nil => simpa [run] using h
  | cons op rest ih =>
    have hrun : run (op :: rest) s = run rest (applyOp s op) := rfl
    rw [hrun]
    exact ih _ (applyOp_frozen op s h)

lemma applyOp_owner (op : Op) (s : State) :
    (applyOp s op).contractOwner = s.contractOwner := by
  cases op with
  | mintOp c => rfl
  | setBaseURIOp c uri =>
    simp only [applyOp]
    cases hr : setBaseURI c uri s with
    | error e => rfl
    | ok s' => rw [setBaseURI_ok_shape c uri s s' hr]; rfl
  | freezeOp c =>
    simp only [applyOp]
    cases hr : freezeMetadata c s with
    | error e => rfl
    | ok s' => rw [freezeMetadata_ok_shape c s s' hr]; rfl
  | transferOp c f t id =>
    simp only [applyOp]
    cases hr : transferFrom c f t id s with
    | error e => rfl
    | ok s' => rw [transferFrom_ok_shape c f t id s s' hr]; rfl

lemma run_owner (ops : List Op) (s : State) :
    (run ops s).contractOwner = s.contractOwner := by
  induction ops generalizing s with
  | nil => rfl
  | cons op rest ih =>
    have hrun : run (op :: rest) s = run rest (applyOp s op) := rfl
    rw [hrun, ih, applyOp_owner]

lemma setBaseURI_frozen_error (caller : Address) (uri : String) (s : State)
    (h : s.metadataFrozen = true) :
    setBaseURI caller uri s =
      .error (if caller = s.contractOwner then .metadataFrozen
              else .unauthorized caller) := by
  by_cases hc : caller = s.contractOwner
  · simp [setBaseURI, hc, h]
  · simp [setBaseURI, hc]

lemma freezeMetadata_ok_frozen (caller : Address) (s s' : State)
    (h : freezeMetadata caller s = .ok s') : s'.metadataFrozen = true := by
  rw [freezeMetadata_ok_shape caller s s' h]

lemma inv_deploy (name symbol : String) (owner : Address) :
    Inv (deploy name symbol owner) := by
  constructor
  · exact Nat.le_refl 1
  · intro tokenId
    simp [deploy, minted, ownerOf]
    omega

lemma minted_mint (c : Address) (s : State) (tokenId : Nat) :
    minted (mint c s).2 tokenId =
      (s.nextTokenId == tokenId || minted s tokenId) := by
  simp only [minted, mint, ownerOf, List.find?_cons]
  by_cases h : s.nextTokenId = tokenId
  · simp [h]
  · have hb : (s.nextTokenId == tokenId) = false := by simp [h]
    simp [hb]

lemma find?_filter_ne (l : List (Nat × Address)) (a b : Nat) (h : a ≠ b) :
    ((l.filter (fun p => p.1 != b)).find? (fun p => p.1 == a)).isSome =
      (l.find? (fun p => p.1 == a)).isSome := by
  induction l with
  | nil => rfl
  | cons p rest ih =>
    rw [List.filter_cons]
    by_cases hp : p.1 = b
    · have h1 : (p.1 != b) = false := by simp [hp]
      have h2 : (p.1 == a) = false := by
        rw [hp]
        simp only [beq_eq_false_iff_ne]
        omega
      rw [h1, if_neg (by simp), List.find?_cons, h2, ih]
    · have h1 : (p.1 != b) = true := by simp [hp]
      rw [h1, if_pos rfl, List.find?_cons, List.find?_cons]
      by_cases ha : p.1 = a
      · rw [show (p.1 == a) = true by simp [ha]]
      · rw [show (p.1 == a) = false by simp [ha], ih]

lemma minted_transfer (c f t : Address) (id : Nat) (s s' : State)
    (h : transferFrom c f t id s = .ok s') (tokenId : Nat) :
    minted s' tokenId = minted s tokenId := by
  have hid := transferFrom_ok_minted c f t id s s' h
  rw [transferFrom_ok_shape c f t id s s' h]
  simp only [minted, ownerOf] at hid ⊢
  by_cases htok : id = tokenId
  · subst htok
    simp only [List.find?_cons, beq_self_eq_true, Option.map_some', Option.isSome_some]
    exact hid.symm
  · have hb : (id == tokenId) = false := by simp [htok]
    simp only [List.find?_cons, hb, Option.isSome_map']
    have hne : tokenId ≠ id := fun hh => htok hh.symm
    exact find?_filter_ne s.owners tokenId id hne

lemma inv_applyOp (op : Op) (s : State) (h : Inv s) : Inv (applyOp s op) := by
  obtain ⟨h1, h2⟩ := h
  cases op with
  | mintOp c =>
    constructor
    · simp only [applyOp, mint_nextTokenId]
      omega
    · intro tokenId
      simp only [applyOp]
      rw [minted_mint, mint_nextTokenId]
      by_cases he : s.nextTokenId = tokenId
      · have hb : (s.nextTokenId == tokenId) = true := by simp [he]
        simp only [hb, Bool.true_or, true_iff]
        omega
      · have hb : (s.nextTokenId == tokenId) = false := by simp [he]
        simp only [hb, Bool.false_or]
        rw [h2 tokenId]
        omega
  | setBaseURIOp c uri =>
    simp only [applyOp]
    cases hr : setBaseURI c uri s with
    | error e => exact ⟨h1, h2⟩
    | ok s' =>
      rw [setBaseURI_ok_shape c uri s s' hr]
      exact ⟨h1, fun tokenId => h2 tokenId⟩
  | freezeOp c =>
    simp only [applyOp]
    cases hr : freezeMetadata c s with
    | error e => exact ⟨h1, h2⟩
    | ok s' =>
      rw [freezeMetadata_ok_shape c s s' hr]
      exact ⟨h1, fun tokenId => h2 tokenId⟩
  | transferOp c f t id =>
    simp only [applyOp]
    cases hr : transferFrom c f t id s with
    | error e => exact ⟨h1, h2⟩
    | ok s' =>
      have hnext : s'.nextTokenId = s.nextTokenId := by
        rw [transferFrom_ok_shape c f t id s s' hr]
      constructor
      · simp only [settle]
        omega
      · intro tokenId
        simp only [settle]
        rw [minted_transfer c f t id s s' hr tokenId, hnext]
        exact h2 tokenId


lemma inv_run (ops : List Op) (s : State) (h : Inv s) : Inv (run ops s) := by
  induction ops generalizing s with
  | nil => exact h
  | cons op rest ih =>
    have hrun : run (op :: rest) s = run rest (applyOp s op) := rfl
    rw [hrun]
    exact ih _ (inv_applyOp op s h)

/-- C1: for every sequence of successful `mint()` calls on a freshly deployed
collection, by any callers, the assigned token ids are exactly
`[1, 2, ..., n]` in call order (`List.range' 1 n`) — strictly increasing from
1 with no gaps or repeats — and afterwards `totalSupply()` equals `n`, the
number of successful mints. -/
theorem mint_ids_one_to_n (name symbol : String) (owner : Address)
    (callers : List Address) :
    (mintSeq callers (deploy name symbol owner)).1 =
      List.range' 1 callers.length ∧
    totalSupply (mintSeq callers (deploy name symbol owner)).2 =
      callers.length := by
  have h := mintSeq_ids callers (deploy name symbol owner)
  refine ⟨h.1, ?_⟩
  have h2 := h.2
  unfold totalSupply
  rw [h2]
  simp [deploy]

/-- C2 counterexample: on a collection whose metadata was frozen by a
successful `freeze()`, a subsequent `setBaseURI` call by a non-owner caller
fails with `Unauthorized` (OpenZeppelin's `OwnableUnauthorizedAccount`),
not with `MetadataFrozen`: the `onlyOwner` modifier is checked before the
frozen flag. -/
theorem setBaseURI_after_freeze_nonowner_unauthorized :
    (applyOp (deploy "Test NFT" "TNFT" "0xOwner") (.freezeOp "0xOwner")).metadataFrozen
        = true ∧
    setBaseURI "0xUser" "https://y/"
        (applyOp (deploy "Test NFT" "TNFT" "0xOwner") (.freezeOp "0xOwner"))
      = .error (.unauthorized "0xUser") ∧
    setBaseURI "0xUser" "https://y/"
        (applyOp (deploy "Test NFT" "TNFT" "0xOwner") (.freezeOp "0xOwner"))
      ≠ .error .metadataFrozen := by
  refine ⟨by decide, by decide, by decide⟩

/-- C2 (amended): after `freeze()` has succeeded, every subsequent
`setBaseURI` call fails — with `MetadataFrozen` when the caller is the owner
and with `Unauthorized(caller)` for any other caller — and the attempt
leaves the collection state, in particular the stored base URI, unchanged. -/
theorem setBaseURI_always_fails_after_freeze (fcaller caller : Address)
    (uri : String) (s s₁ : State) (ops : List Op)
    (hfreeze : freezeMetadata fcaller s = .ok s₁) :
    setBaseURI caller uri (run ops s₁) =
      .error (if caller = (run ops s₁).contractOwner then .metadataFrozen
              else .unauthorized caller) ∧
    applyOp (run ops s₁) (.setBaseURIOp caller uri) = run ops s₁ := by
  have h1 : s₁.metadataFrozen = true := freezeMetadata_ok_frozen fcaller s s₁ hfreeze
  have h2 : (run ops s₁).metadataFrozen = true := run_frozen ops s₁ h1
  refine ⟨setBaseURI_frozen_error caller uri _ h2, ?_⟩
  simp only [applyOp]
  rw [setBaseURI_frozen_error caller uri _ h2]
  rfl

theorem setBaseURI_always_fails_after_freeze_witness :
    setBaseURI "0xUser" "https://y/"
        (run [Op.mintOp "0xUser"]
          { deploy "T" "TNFT" "0xOwner" with metadataFrozen := true }) =
      .error (if "0xUser" =
          (run [Op.mintOp "0xUser"]
            { deploy "T" "TNFT" "0xOwner" with metadataFrozen := true }).contractOwner
        then .metadataFrozen else .unauthorized "0xUser") ∧
    applyOp (run [Op.mintOp "0xUser"]
          { deploy "T" "TNFT" "0xOwner" with metadataFrozen := true })
        (.setBaseURIOp "0xUser" "https://y/") =
      run [Op.mintOp "0xUser"]
        { deploy "T" "TNFT" "0xOwner" with metadataFrozen := true } :=
  setBaseURI_always_fails_after_freeze "0xOwner" "0xUser" "https://y/"
    (deploy "T" "TNFT" "0xOwner") _ [Op.mintOp "0xUser"] (by rfl)

/-- C3: on every reachable collection state, a token id is minted exactly
when it lies in `1 .. totalSupply()`; `tokenURI` fails with `NotFound`
(`ERC721NonexistentToken`) for an unminted id and returns the concatenation
of the currently stored base URI with the decimal, unpadded rendering of
the token id for a minted one. -/
theorem tokenURI_notfound_or_concat (name symbol : String) (owner : Address)
    (ops : List Op) (tokenId : Nat) :
    (minted (run ops (deploy name symbol owner)) tokenId = true ↔
      1 ≤ tokenId ∧ tokenId ≤ totalSupply (run ops (deploy name symbol owner))) ∧
    (minted (run ops (deploy name symbol owner)) tokenId = false →
      tokenURI (run ops (deploy name symbol owner)) tokenId =
        .error (.nonexistentToken tokenId)) ∧
    (minted (run ops (deploy name symbol owner)) tokenId = true →
      tokenURI (run ops (deploy name symbol owner)) tokenId =
        .ok ((run ops (deploy name symbol owner)).baseTokenURI ++ toString tokenId)) := by
  obtain ⟨h1, h2⟩ := inv_run ops _ (inv_deploy name symbol owner)
  refine ⟨?_, ?_, ?_⟩
  · rw [h2 tokenId]
    unfold totalSupply
    omega
  · intro hm
    unfold minted at hm
    unfold tokenURI
    cases ho : ownerOf (run ops (deploy name symbol owner)) tokenId with
    | none => rfl
    | some o => rw [ho] at hm; simp at hm
  · intro hm
    unfold minted at hm
    unfold tokenURI
    cases ho : ownerOf (run ops (deploy name symbol owner)) tokenId with
    | none => rw [ho] at hm; simp at hm
    | some o => rfl

theorem tokenURI_notfound_or_concat_witness :
    tokenURI (run [Op.setBaseURIOp "0xOwner" "https://x/", Op.mintOp "0xUser"]
        (deploy "Test NFT" "TNFT" "0xOwner")) 1 = .ok ("https://x/" ++ toString 1) ∧
    tokenURI (run [Op.setBaseURIOp "0xOwner" "https://x/", Op.mintOp "0xUser"]
        (deploy "Test NFT" "TNFT" "0xOwner")) 2 = .error (.nonexistentToken 2) :=
  ⟨(tokenURI_notfound_or_concat "Test NFT" "TNFT" "0xOwner"
      [Op.setBaseURIOp "0xOwner" "https://x/", Op.mintOp "0xUser"] 1).2.2 (by rfl),
   (tokenURI_notfound_or_concat "Test NFT" "TNFT" "0xOwner"
      [Op.setBaseURIOp "0xOwner" "https://x/", Op.mintOp "0xUser"] 2).2.1 (by rfl)⟩

/-- C4: the frozen flag is a one-way latch — no sequence of interface
operations ever takes it from `true` back to `false` — and a `freeze()`
call by the owner on an already-frozen collection succeeds as a no-op,
returning the state entirely unchanged. -/
theorem frozen_one_way_latch :
    (∀ (ops : List Op) (s : State), s.metadataFrozen = true →
        (run ops s).metadataFrozen = true) ∧
    (∀ (s : State), s.metadataFrozen = true →
        freezeMetadata s.contractOwner s = .ok s) := by
  constructor
  · exact fun ops s h => run_frozen ops s h
  · intro s h
    have hs : ({ s with metadataFrozen := true } : State) = s := by
      cases s
      simp_all
    unfold freezeMetadata
    rw [if_neg (by simp), hs]

theorem frozen_one_way_latch_witness :
    (run [Op.setBaseURIOp "0xOwner" "https://x/", Op.mintOp "0xUser",
          Op.freezeOp "0xOwner", Op.transferOp "0xUser" "0xUser" "0xOther" 1]
        { deploy "T" "TNFT" "0xOwner" with metadataFrozen := true }).metadataFrozen
      = true ∧
    freezeMetadata "0xOwner" { deploy "T" "TNFT" "0xOwner" with metadataFrozen := true }
      = .ok { deploy "T" "TNFT" "0xOwner" with metadataFrozen := true } :=
  ⟨frozen_one_way_latch.1 _ { deploy "T" "TNFT" "0xOwner" with metadataFrozen := true } rfl,
   frozen_one_way_latch.2 { deploy "T" "TNFT" "0xOwner" with metadataFrozen := true } rfl⟩

end SimpleNFT

namespace ImageApi

lemma hashStep_eq_specHashStep (acc : Int) (c : Nat) :
    hashStep acc c = specHashStep acc c := by
  unfold hashStep specHashStep toInt32
  omega

lemma jsHash_eq_specHash (tokenId : String) : jsHash tokenId = specHash tokenId := by
  unfold jsHash specHash
  congr 1
  funext acc ch
  exact hashStep_eq_specHashStep acc ch.toNat

lemma specHashStep_bound (acc : Int) (c : Nat) :
    -2147483648 ≤ specHashStep acc c ∧ specHashStep acc c < 2147483648 := by
  unfold specHashStep toInt32
  omega

lemma specHash_foldl_bound (l : List Char) (acc : Int)
    (h1 : -2147483648 ≤ acc) (h2 : acc < 2147483648) :
    -2147483648 ≤ l.foldl (fun a ch => specHashStep a ch.toNat) acc ∧
      l.foldl (fun a ch => specHashStep a ch.toNat) acc < 2147483648 := by
  induction l generalizing acc with
  | nil => exact ⟨h1, h2⟩
  | cons ch rest ih =>
    exact ih (specHashStep acc ch.toNat)
      (specHashStep_bound acc ch.toNat).1 (specHashStep_bound acc ch.toNat).2

/-- C5: the image synthesizer computes exactly what the specification
describes: the source-level hash fold `((acc << 5) - acc + c) | 0` equals the
spec's `hash = (hash*31 + charCode)` with signed 32-bit wraparound; the hash
is a signed 32-bit value; the background color is HSL with hue
`abs(hash) % 360` and fixed saturation/lightness; the pattern is
`3 + (abs(hash) % 5)` circles of radius `50 + (hash % 30)` (JavaScript
truncated remainder); and the `GET` handler is a pure function of the token
id, so equal token ids yield byte-identical SVG responses. -/
theorem imageSynthesizer_matches_spec :
    (∀ tokenId : String, jsHash tokenId = specHash tokenId) ∧
    (∀ tokenId : String,
      -2147483648 ≤ jsHash tokenId ∧ jsHash tokenId < 2147483648) ∧
    (∀ tokenId : String, generateColor tokenId =
      "hsl(" ++ toString ((specHash tokenId).natAbs % 360) ++ ", 70%, 60%)") ∧
    (∀ (trig : Nat → Nat → String × String) (tokenId : String),
      generatePattern trig tokenId =
        String.join ((List.range (3 + (specHash tokenId).natAbs % 5)).map (fun i =>
          circleSVG (trig (3 + (specHash tokenId).natAbs % 5) i).1
            (trig (3 + (specHash tokenId).natAbs % 5) i).2
            (toString (50 + Int.tmod (specHash tokenId) 30))))) ∧
    (∀ (trig : Nat → Nat → String × String) (t₁ t₂ : String), t₁ = t₂ →
      imageGET trig t₁ = imageGET trig t₂) := by
  refine ⟨jsHash_eq_specHash, ?_, ?_, ?_, ?_⟩
  · intro tokenId
    rw [jsHash_eq_specHash]
    exact specHash_foldl_bound _ 0 (by omega) (by omega)
  · intro tokenId
    unfold generateColor
    rw [jsHash_eq_specHash]
  · intro trig tokenId
    simp only [generatePattern, jsHash_eq_specHash]
    rw [Nat.add_comm ((specHash tokenId).natAbs % 5) 3]
  · intro trig t₁ t₂ h
    rw [h]

theorem imageSynthesizer_matches_spec_witness :
    jsHash "42" = specHash "42" ∧
    imageGET (fun _ _ => ("250", "250")) "42" =
      imageGET (fun _ _ => ("250", "250")) "42" :=
  ⟨imageSynthesizer_matches_spec.1 "42",
   imageSynthesizer_matches_spec.2.2.2.2 (fun _ _ => ("250", "250")) "42" "42" rfl⟩

end ImageApi

namespace MetadataApi

lemma append_ne_empty_left (s t : String) (h : s ≠ "") : s ++ t ≠ "" := by
  intro hh
  apply h
  have hd := congrArg String.data hh
  rw [String.data_append] at hd
  have hs : s.data = [] := (List.append_eq_nil.mp hd).1
  exact String.ext (by rw [hs])

lemma append_ne_empty_right (s t : String) (h : t ≠ "") : s ++ t ≠ "" := by
  intro hh
  apply h
  have hd := congrArg String.data hh
  rw [String.data_append] at hd
  have hs : t.data = [] := (List.append_eq_nil.mp hd).2
  exact String.ext (by rw [hs])

lemma envOr_ne_empty (v : Option String) : envOr v ≠ "" := by
  unfold envOr jsOr
  cases v with
  | none => decide
  | some s =>
    dsimp only
    by_cases hs : (s != "") = true
    · rw [if_pos hs]
      simpa using hs
    · rw [if_neg hs]
      decide

lemma buildMetadata_valid (apiURL siteURL tokenId : String) (uploaded : Option String)
    (now : Int) :
    validateMetadata (buildMetadata apiURL siteURL tokenId uploaded now) = true := by
  have hname : ("MyNFT #" ++ tokenId) ≠ "" :=
    append_ne_empty_left _ _ (by decide)
  have hdesc : ("NFT #" ++ tokenId ++ " on the Nexus network.") ≠ "" :=
    append_ne_empty_right _ _ (by decide)
  have hext : (siteURL ++ "/nft/" ++ tokenId) ≠ "" :=
    append_ne_empty_left _ _ (append_ne_empty_right _ _ (by decide))
  have hfb : (apiURL ++ "/api/image/" ++ tokenId) ≠ "" :=
    append_ne_empty_left _ _ (append_ne_empty_right _ _ (by decide))
  have himg : jsOr uploaded (apiURL ++ "/api/image/" ++ tokenId) ≠ "" := by
    unfold jsOr
    cases uploaded with
    | none => exact hfb
    | some s =>
      dsimp only
      by_cases hs : (s != "") = true
      · rw [if_pos hs]
        simpa using hs
      · rw [if_neg hs]
        exact hfb
  unfold validateMetadata buildMetadata
  simp only [bne_iff_ne, ne_eq, List.all_cons, List.all_nil, Bool.and_eq_true]
  exact ⟨hname, hdesc, himg, hext, by decide, by decide, by decide⟩

lemma metadataGET_ok (envApi envSite : Option String) (store : String → StorageOutcome)
    (tokenId : String) (contract : Option String) (now : Int)
    (hc : isTruthy contract = true) :
    metadataGET envApi envSite store tokenId contract now =
      { status := 200, contentType := some "application/json",
        cacheControl := some "no-cache, no-store, must-revalidate",
        body := .doc (buildMetadata (envOr envApi) (envOr envSite) tokenId
          (findUploadedImage store (contract.getD "")) now) } := by
  simp only [metadataGET, hc, Bool.not_true, Bool.false_eq_true, if_false,
    buildMetadata_valid]

/-- C6 counterexample: when the asset-store lookup finds a collection asset
whose download URL resolves to the empty string, the served document falls
back to the generated-image endpoint and reports `Image Type` = "Generated",
although an uploaded asset exists and resolved. -/
theorem metadata_uploaded_empty_url_counterexample :
    findUploadedImage emptyUrlStore "0xAbC" = some "" ∧
    imageOf (metadataGET none none emptyUrlStore "1" (some "0xAbC") 0) =
      some "http://localhost:3000/api/image/1" ∧
    imageTypeOf (metadataGET none none emptyUrlStore "1" (some "0xAbC") 0) =
      some (.str "Generated") :=
  ⟨rfl, rfl, rfl⟩

/-- C6 (amended): for every metadata request with a truthy contract address:
when the uploaded-asset lookup yields nothing, the response is a 200
document whose `image` is the generated-image endpoint URL for the token id
and whose `Image Type` attribute is "Generated"; when the lookup resolves an
uploaded asset to a non-empty URL, `image` is that URL and `Image Type` is
"Uploaded"; and a storage failure (initialization or listing) never fails
the request — it degrades to the no-asset outcome. -/
theorem metadata_image_fallback (envApi envSite : Option String)
    (store : String → StorageOutcome) (tokenId : String) (contract : Option String)
    (now : Int) (hc : isTruthy contract = true) :
    (findUploadedImage store (contract.getD "") = none →
      (metadataGET envApi envSite store tokenId contract now).status = 200 ∧
      imageOf (metadataGET envApi envSite store tokenId contract now) =
        some (envOr envApi ++ "/api/image/" ++ tokenId) ∧
      imageTypeOf (metadataGET envApi envSite store tokenId contract now) =
        some (.str "Generated")) ∧
    (∀ url : String, url ≠ "" →
      findUploadedImage store (contract.getD "") = some url →
      (metadataGET envApi envSite store tokenId contract now).status = 200 ∧
      imageOf (metadataGET envApi envSite store tokenId contract now) = some url ∧
      imageTypeOf (metadataGET envApi envSite store tokenId contract now) =
        some (.str "Uploaded")) ∧
    (store ("collections/" ++ JsStr.jsToLower (contract.getD "")) = .initFailure ∨
     store ("collections/" ++ JsStr.jsToLower (contract.getD "")) = .listFailure →
      findUploadedImage store (contract.getD "") = none) := by
  have hresp := metadataGET_ok envApi envSite store tokenId contract now hc
  refine ⟨?_, ?_, ?_⟩
  · intro hupload
    refine ⟨by rw [hresp], ?_, ?_⟩
    · rw [hresp, hupload]
      rfl
    · rw [hresp, hupload]
      rfl
  · intro url hurl hupload
    have hb : (url != "") = true := by simpa using hurl
    refine ⟨by rw [hresp], ?_, ?_⟩
    · rw [hresp, hupload]
      simp only [imageOf, buildMetadata, jsOr, hb, if_true]
    · rw [hresp, hupload]
      simp only [imageTypeOf, buildMetadata, isTruthy, hb, if_true]
      rfl
  · intro hfail
    unfold findUploadedImage
    cases hfail with
    | inl h => rw [h]
    | inr h => rw [h]

theorem metadata_image_fallback_witness :
    (metadataGET none none (fun _ => .listFailure) "7" (some "0xabc") 0).status = 200 ∧
    imageOf (metadataGET none none (fun _ => .listFailure) "7" (some "0xabc") 0) =
      some (envOr none ++ "/api/image/" ++ "7") ∧
    imageTypeOf (metadataGET none none (fun _ => .listFailure) "7" (some "0xabc") 0) =
      some (.str "Generated") :=
  (metadata_image_fallback none none (fun _ => .listFailure) "7" (some "0xabc") 0
    (by rfl)).1 (by rfl)

/-- C7 counterexample: a request whose `contract` query parameter is present
but empty (`?contract=&tokenId=1`) — both parameters present — still gets
the 400 missing-parameter error, because the handler tests JavaScript
truthiness rather than presence. -/
theorem missing_param_present_empty_counterexample :
    (some "" : Option String).isSome = true ∧
    (some "1" : Option String).isSome = true ∧
    (metadataGETQuery none none (fun _ => .listFailure) (some "") (some "1") 0).status
      = 400 ∧
    (metadataGETQuery none none (fun _ => .listFailure) (some "") (some "1") 0).body
      = .errMsg "Contract address is required" :=
  ⟨rfl, rfl, rfl, rfl⟩

/-- C7 (amended): the query-parameter metadata route answers with the
missing-parameter 400 error exactly when `contract` or `tokenId` is absent
or empty; and the path-parameter route answers 400 exactly when its
`contract` query parameter is absent or empty. -/
theorem missing_param_iff (envApi envSite : Option String)
    (store : String → StorageOutcome) (contract tokenId : Option String)
    (tid : String) (now : Int) :
    (isMissingParamResp (metadataGETQuery envApi envSite store contract tokenId now) ↔
      (contract = none ∨ contract = some "" ∨ tokenId = none ∨ tokenId = some "")) ∧
    ((metadataGET envApi envSite store tid contract now).status = 400 ↔
      (contract = none ∨ contract = some "")) := by
  constructor
  · cases contract with
    | none => simp [metadataGETQuery, isMissingParamResp, isTruthy]
    | some c =>
      by_cases hcv : c = ""
      · subst hcv
        simp [metadataGETQuery, isMissingParamResp, isTruthy]
      · have hb : (c != "") = true := by simpa using hcv
        cases tokenId with
        | none => simp [metadataGETQuery, isMissingParamResp, isTruthy, hb, hcv]
        | some t =>
          by_cases htv : t = ""
          · subst htv
            simp [metadataGETQuery, isMissingParamResp, isTruthy, hb, hcv]
          · have hbt : (t != "") = true := by simpa using htv
            simp [metadataGETQuery, isMissingParamResp, isTruthy, hb, hbt, hcv, htv]
  · cases contract with
    | none => simp [metadataGET, isTruthy]
    | some c =>
      by_cases hcv : c = ""
      · subst hcv
        simp [metadataGET, isTruthy]
      · have hb : (c != "") = true := by simpa using hcv
        rw [metadataGET_ok envApi envSite store tid (some c) now (by simp [isTruthy, hcv])]
        simp [hcv]

/-- C8: every successful metadata response (of either metadata route)
carries the cache directive `no-cache, no-store, must-revalidate` — which
contains the `no-store` token — while every image response is served as
`image/svg+xml` with the long-lived immutable directive
`public, max-age=31536000, immutable`. -/
theorem cache_directives (envApi envSite : Option String)
    (store : String → StorageOutcome) (tokenId : String)
    (contract qTokenId : Option String) (now : Int)
    (trig : Nat → Nat → String × String) (imgTokenId : String) :
    ((metadataGET envApi envSite store tokenId contract now).status = 200 →
      (metadataGET envApi envSite store tokenId contract now).cacheControl =
        some "no-cache, no-store, must-revalidate") ∧
    ((metadataGETQuery envApi envSite store contract qTokenId now).status = 200 →
      (metadataGETQuery envApi envSite store contract qTokenId now).cacheControl =
        some "no-cache, no-store, must-revalidate") ∧
    ("no-cache, " ++ "no-store" ++ ", must-revalidate" : String) =
      "no-cache, no-store, must-revalidate" ∧
    (ImageApi.imageGET trig imgTokenId).contentType = some "image/svg+xml" ∧
    (ImageApi.imageGET trig imgTokenId).cacheControl =
      some "public, max-age=31536000, immutable" := by
  refine ⟨?_, ?_, rfl, rfl, rfl⟩
  · simp only [metadataGET]
    split
    · intro h
      simp at h
    · split
      · intro h
        simp at h
      · intro h
        rfl
  · simp only [metadataGETQuery]
    split
    · intro h
      simp at h
    · split
      · intro h
        simp at h
      · intro h
        rfl

theorem cache_directives_witness :
    (metadataGET none none (fun _ => .listFailure) "1" (some "0xabc") 0).cacheControl =
      some "no-cache, no-store, must-revalidate" ∧
    (metadataGETQuery none none (fun _ => .listFailure) (some "0xabc") (some "1") 0).cacheControl =
      some "no-cache, no-store, must-revalidate" :=
  ⟨(cache_directives none none (fun _ => .listFailure) "1" (some "0xabc") (some "1") 0
      (fun _ _ => ("250", "250")) "1").1 (by rfl),
   (cache_directives none none (fun _ => .listFailure) "1" (some "0xabc") (some "1") 0
      (fun _ _ => ("250", "250")) "1").2.1 (by rfl)⟩

/-- C9: for every token id, every contract address, every storage outcome
and every resolution time, the document the resolver constructs passes its
own `validateMetadata` check, so the internal-validation-failure branch
(`InvalidMetadata`, 500) of the `GET` handler is unreachable. -/
theorem metadata_never_invalid (envApi envSite : Option String)
    (store : String → StorageOutcome) (tokenId : String) (uploaded : Option String)
    (contract : Option String) (now : Int) :
    validateMetadata (buildMetadata (envOr envApi) (envOr envSite) tokenId uploaded now)
        = true ∧
    (metadataGET envApi envSite store tokenId contract now).status ≠ 500 ∧
    (metadataGET envApi envSite store tokenId contract now).body ≠
      .errMsg "Invalid metadata structure" := by
  refine ⟨buildMetadata_valid _ _ _ _ _, ?_, ?_⟩
  · cases hc : isTruthy contract with
    | false =>
      simp [metadataGET, hc]
    | true =>
      rw [metadataGET_ok envApi envSite store tokenId contract now hc]
      simp
  · cases hc : isTruthy contract with
    | false =>
      simp [metadataGET, hc]
    | true =>
      rw [metadataGET_ok envApi envSite store tokenId contract now hc]
      simp

theorem metadata_never_invalid_witness :
    validateMetadata (buildMetadata (envOr none) (envOr none) "1" none 0) = true ∧
    (metadataGET none none (fun _ => .listFailure) "1" (some "0xabc") 0).status ≠ 500 :=
  ⟨(metadata_never_invalid none none (fun _ => .listFailure) "1" none (some "0xabc") 0).1,
   (metadata_never_invalid none none (fun _ => .listFailure) "1" none (some "0xabc") 0).2.1⟩

end MetadataApi

namespace UploadApi

open JsStr

/-- C10: every successful upload stores the object at exactly
`collections/<lowercased contractAddress>/collection-<sanitized filename>`,
the sanitized filename consists only of characters in `[a-zA-Z0-9.-]`, and
the resulting filename segment contains no `/` — the client-supplied
filename cannot introduce additional path segments or escape the contract
address's namespace. -/
theorem upload_path_confined (file : Option UploadFile)
    (contractAddress tokenId : Option String) (p : String)
    (h : uploadPOST file contractAddress tokenId = .stored p) :
    ∃ f : UploadFile, file = some f ∧
      p = "collections/" ++ jsToLower (contractAddress.getD "") ++ "/" ++
        ("collection-" ++ sanitizeFileName f.name) ∧
      (sanitizeFileName f.name).data.all isSafeChar = true ∧
      '/' ∉ ("collection-" ++ sanitizeFileName f.name).data := by
  cases file with
  | none => exact absurd h (by simp [uploadPOST])
  | some f =>
    refine ⟨f, rfl, ?_, ?_, ?_⟩
    · simp only [uploadPOST] at h
      by_cases h1 : (!(MetadataApi.isTruthy contractAddress)) = true
      · rw [if_pos h1] at h
        exact absurd h (by simp)
      · rw [if_neg h1] at h
        by_cases h2 : (!(jsStartsWith f.type "image/")) = true
        · rw [if_pos h2] at h
          exact absurd h (by simp)
        · rw [if_neg h2] at h
          cases h
          rfl
    · unfold sanitizeFileName
      simp only [List.all_eq_true]
      intro c hc
      exact (List.mem_filter.mp hc).2
    · intro hmem
      rw [String.data_append] at hmem
      rcases List.mem_append.mp hmem with h1 | h2
      · exact absurd h1 (by decide)
      · have hsafe : isSafeChar '/' = true := (List.mem_filter.mp h2).2
        exact absurd hsafe (by decide)

theorem upload_path_confined_witness :
    ∃ f : UploadFile,
      (some ⟨"my logo!.png", "image/png"⟩ : Option UploadFile) = some f ∧
      "collections/0xabc/collection-mylogo.png" =
        "collections/" ++ jsToLower ((some "0xAbC" : Option String).getD "") ++ "/" ++
          ("collection-" ++ sanitizeFileName f.name) ∧
      (sanitizeFileName f.name).data.all isSafeChar = true ∧
      '/' ∉ ("collection-" ++ sanitizeFileName f.name).data :=
  upload_path_confined (some ⟨"my logo!.png", "image/png"⟩) (some "0xAbC") none
    "collections/0xabc/collection-mylogo.png" (by rfl)

end UploadApi
